import Mathlib

/-!
# Verification of the PlaywrightTraceEye report-search core (`router_app.py`)

Shallow embedding of the three core operations of the repository:

* `find_test_in_data`   — the Suite Locator (src/router_app.py, lines 36-70);
* `get_attachment_by_name` — the Attachment Locator (lines 73-111);
* `get_test_attachments`   — the Lookup Coordinator (lines 114-156).

JSON dictionaries are embedded as dedicated inductive types carrying exactly
the fields the code reads.  Python-specific behaviours are made explicit:
`dict.get(k, default)` becomes an `Option` field (an absent key is `none`, and
an absent `name`/`children`/`attachments`/`steps` key is modelled directly as
the default the code substitutes: `""` resp. `[]`), `'uid' in node` becomes
`Option.isSome`, and the truthiness test `if test_uid:` on an optional string
is `none`/`""` falsy.  Network effects (`requests.get` + `raise_for_status` +
`.json()`) are embedded as an explicit `Fetched` result passed in by the
caller; the coordinator's `try/except` catch-all corresponds to the non-`ok`
constructors collapsing to `none`.
-/

/-- A value appearing in the `suites.json` tree.  A Python `dict` node keeps
the three fields `find_test_in_data` reads (`name`, `uid`, `children`); any
non-`dict` value (the code's `isinstance(node, dict)` guard) is `other`.
An absent `name` key is modelled as `""` (the code reads
`node.get('name', '')`), an absent `children` key as `[]` (the code only uses
`children` to `extend` the stack, so absent and empty behave identically);
`uid` stays an `Option` because the code tests key presence (`'uid' in node`). -/
inductive RNode where
  | obj (name : String) (uid : Option String) (children : List RNode)
  | other

/-- The `name` the code would read off a node via `node.get('name', '')`. -/
def RNode.nameOf : RNode → String
  | .obj name _ _ => name
  | .other => ""

/-- The `uid` field of a node (`none` when the key is absent). -/
def RNode.uidOf : RNode → Option String
  | .obj _ uid _ => uid
  | .other => none

mutual
/-- Total weight of a node, used as the termination measure of the
explicit-stack traversal (strictly larger than the weight of its children). -/
def RNode.weight : RNode → Nat
  | .obj _ _ children => 1 + RNode.weightList children
  | .other => 1

/-- Total weight of a list of nodes. -/
def RNode.weightList : List RNode → Nat
  | [] => 0
  | c :: cs => RNode.weight c + RNode.weightList cs
end

theorem RNode.weightList_append : ∀ (l1 l2 : List RNode),
    RNode.weightList (l1 ++ l2) = RNode.weightList l1 + RNode.weightList l2
  | [], _ => by simp [RNode.weightList]
  | x :: xs, l2 => by
    simp [RNode.weightList, RNode.weightList_append xs l2]
    omega

theorem RNode.weightList_reverse : ∀ (l : List RNode),
    RNode.weightList l.reverse = RNode.weightList l
  | [] => rfl
  | x :: xs => by
    simp [List.reverse_cons, RNode.weightList_append, RNode.weightList,
      RNode.weightList_reverse xs]
    omega

/-- `pat.isPrefixOf text`-then-shift scan: does `pat` occur as a contiguous
sublist of the text?  (Embeds Python's substring operator `pat in s`.) -/
def infixAux (pat : List Char) : List Char → Bool
  | [] => pat.isEmpty
  | c :: cs => pat.isPrefixOf (c :: cs) || infixAux pat cs

/-- Python's `pat in s` substring containment on strings. -/
def strContains (s pat : String) : Bool := infixAux pat.data s.data

/-- Line 59 of the source: `'TestSuite' in name or 'Test' in name`. -/
def suiteLike (name : String) : Bool :=
  strContains name "TestSuite" || strContains name "Test"

/-- Lines 58-60 of the source: visiting a node updates the single
`current_suite` context, unconditionally overwritten when the node is
suite-like. -/
def updateSuite (current_suite : Option String) (name : String) : Option String :=
  if suiteLike name then some name else current_suite

/-- The `while stack:` loop of `find_test_in_data` (lines 48-70).  The Python
stack pops from the end and `extend`s children at the end, so the head of this
list is the stack top and pushing the children block puts them in reversed
order in front of the remaining stack.  Returns the matched node (the source
returns the `dict` itself). -/
def find_test_in_data_aux (suite_name test_name : String) :
    List RNode → Option String → Option RNode
  | [], _ => none
  | .other :: rest, current_suite =>
      -- `if not isinstance(node, dict): continue`
      find_test_in_data_aux suite_name test_name rest current_suite
  | .obj name uid children :: rest, current_suite =>
      if updateSuite current_suite name == some suite_name
          && name == test_name && uid.isSome then
        some (.obj name uid children)
      else
        find_test_in_data_aux suite_name test_name
          (children.reverse ++ rest) (updateSuite current_suite name)
termination_by stack _cs => RNode.weightList stack
decreasing_by
  all_goals simp [RNode.weightList, RNode.weight, RNode.weightList_append,
    RNode.weightList_reverse]

/-- `find_test_in_data` (source lines 36-70): stack seeded with the root,
`current_suite` starting as Python `None`. -/
def find_test_in_data (json_data : RNode) (suite_name test_name : String) :
    Option RNode :=
  find_test_in_data_aux suite_name test_name [json_data] none

/-- Ghost instrumentation of the same loop: the sequence of visited `dict`
nodes, each paired with the value `current_suite` holds when the match check
runs at that node (i.e. after the suite-like update).  No short-circuit. -/
def visitAux : List RNode → Option String → List (RNode × Option String)
  | [], _ => []
  | .other :: rest, current_suite => visitAux rest current_suite
  | .obj name uid children :: rest, current_suite =>
      (.obj name uid children, updateSuite current_suite name) ::
        visitAux (children.reverse ++ rest) (updateSuite current_suite name)
termination_by stack _cs => RNode.weightList stack
decreasing_by
  all_goals simp [RNode.weightList, RNode.weight, RNode.weightList_append,
    RNode.weightList_reverse]

/-- The full visit sequence of a traversal started at `root`. -/
def visits (root : RNode) : List (RNode × Option String) := visitAux [root] none

/-- The match condition of line 63, read off a visited pair:
`current_suite == suite_name and name == test_name and 'uid' in node`. -/
def matchB (suite_name test_name : String) (p : RNode × Option String) : Bool :=
  p.2 == some suite_name && p.1.nameOf == test_name && p.1.uidOf.isSome

/-- Node order of the traversal, ignoring context (ghost). -/
def visitNodes : List RNode → List RNode
  | [] => []
  | .other :: rest => visitNodes rest
  | .obj name uid children :: rest =>
      .obj name uid children :: visitNodes (children.reverse ++ rest)
termination_by stack => RNode.weightList stack
decreasing_by
  all_goals simp [RNode.weightList, RNode.weight, RNode.weightList_append,
    RNode.weightList_reverse]

mutual
/-- Specification-side order: depth-first pre-order in which the children of
each node are visited in reverse of their listed order. -/
def preorderRev : RNode → List RNode
  | .other => []
  | .obj name uid children => .obj name uid children :: revChildOrder children
/-- Subtrees of a listed block of children, last listed child first. -/
def revChildOrder : List RNode → List RNode
  | [] => []
  | c :: cs => revChildOrder cs ++ preorderRev c
end

/-- `preorderRev` mapped over a stack, top first. -/
def preorderList : List RNode → List RNode
  | [] => []
  | x :: xs => preorderRev x ++ preorderList xs

/-- Specification-side context threading: a single flat context value carried
along the flattened visit order, overwritten (never stacked) at each
suite-like node, and recorded already-updated at the node itself. -/
def threadCtx : Option String → List RNode → List (RNode × Option String)
  | _, [] => []
  | current_suite, n :: ns =>
      (n, updateSuite current_suite n.nameOf) ::
        threadCtx (updateSuite current_suite n.nameOf) ns

/-! ## Lemmas connecting the executable traversal to its specification views -/

theorem find_aux_eq_find? (suite_name test_name : String) :
    ∀ (stack : List RNode) (current_suite : Option String),
      find_test_in_data_aux suite_name test_name stack current_suite =
        ((visitAux stack current_suite).find?
          (matchB suite_name test_name)).map Prod.fst
  | [], _ => by simp [find_test_in_data_aux, visitAux]
  | .other :: rest, current_suite => by
    simp only [find_test_in_data_aux, visitAux]
    exact find_aux_eq_find? suite_name test_name rest current_suite
  | .obj name uid children :: rest, current_suite => by
    simp only [find_test_in_data_aux, visitAux]
    by_cases h : matchB suite_name test_name
        (.obj name uid children, updateSuite current_suite name)
    · have hc : (updateSuite current_suite name == some suite_name
          && name == test_name && uid.isSome) = true := by
        simpa [matchB, RNode.nameOf, RNode.uidOf] using h
      simp [hc, List.find?_cons_of_pos, h]
    · have hc : (updateSuite current_suite name == some suite_name
          && name == test_name && uid.isSome) = false := by
        simpa [matchB, RNode.nameOf, RNode.uidOf] using h
      simp only [hc, if_false, List.find?_cons_of_neg _ (by simpa using h)]
      exact find_aux_eq_find? suite_name test_name
        (children.reverse ++ rest) (updateSuite current_suite name)
termination_by stack _cs => RNode.weightList stack
decreasing_by
  all_goals simp [RNode.weightList, RNode.weight, RNode.weightList_append,
    RNode.weightList_reverse]

theorem visitAux_map_fst :
    ∀ (stack : List RNode) (current_suite : Option String),
      (visitAux stack current_suite).map Prod.fst = visitNodes stack
  | [], _ => by simp [visitAux, visitNodes]
  | .other :: rest, current_suite => by
    simp only [visitAux, visitNodes]
    exact visitAux_map_fst rest current_suite
  | .obj name uid children :: rest, current_suite => by
    simp only [visitAux, visitNodes, List.map_cons]
    rw [visitAux_map_fst (children.reverse ++ rest) (updateSuite current_suite name)]
termination_by stack _cs => RNode.weightList stack
decreasing_by
  all_goals simp [RNode.weightList, RNode.weight, RNode.weightList_append,
    RNode.weightList_reverse]

theorem visitAux_eq_threadCtx :
    ∀ (stack : List RNode) (current_suite : Option String),
      visitAux stack current_suite = threadCtx current_suite (visitNodes stack)
  | [], _ => by simp [visitAux, visitNodes, threadCtx]
  | .other :: rest, current_suite => by
    simp only [visitAux, visitNodes]
    exact visitAux_eq_threadCtx rest current_suite
  | .obj name uid children :: rest, current_suite => by
    simp only [visitAux, visitNodes, threadCtx, RNode.nameOf]
    rw [visitAux_eq_threadCtx (children.reverse ++ rest) (updateSuite current_suite name)]
termination_by stack _cs => RNode.weightList stack
decreasing_by
  all_goals simp [RNode.weightList, RNode.weight, RNode.weightList_append,
    RNode.weightList_reverse]

theorem preorderList_append : ∀ (l1 l2 : List RNode),
    preorderList (l1 ++ l2) = preorderList l1 ++ preorderList l2
  | [], _ => rfl
  | x :: xs, l2 => by
    simp only [List.cons_append, preorderList, List.append_eq]
    rw [preorderList_append xs l2, List.append_assoc]

theorem preorderList_reverse : ∀ (l : List RNode),
    preorderList l.reverse = revChildOrder l
  | [] => rfl
  | c :: cs => by
    simp only [List.reverse_cons, preorderList_append, revChildOrder,
      preorderList, List.append_nil, preorderList_reverse cs]

theorem visitNodes_eq_preorderList : ∀ (stack : List RNode),
    visitNodes stack = preorderList stack
  | [] => by simp [visitNodes, preorderList]
  | .other :: rest => by
    simp only [visitNodes, preorderList, preorderRev, List.nil_append]
    exact visitNodes_eq_preorderList rest
  | .obj name uid children :: rest => by
    simp only [visitNodes, preorderList, preorderRev]
    rw [visitNodes_eq_preorderList (children.reverse ++ rest),
      preorderList_append, preorderList_reverse]
    simp
termination_by stack => RNode.weightList stack
decreasing_by
  all_goals simp [RNode.weightList, RNode.weight, RNode.weightList_append,
    RNode.weightList_reverse]

theorem find_test_in_data_eq_find? (root : RNode) (suite_name test_name : String) :
    find_test_in_data root suite_name test_name =
      ((visits root).find? (matchB suite_name test_name)).map Prod.fst := by
  simpa [find_test_in_data, visits] using
    find_aux_eq_find? suite_name test_name [root] none

theorem visits_map_fst_eq_preorderRev (root : RNode) :
    (visits root).map Prod.fst = preorderRev root := by
  rw [visits, visitAux_map_fst, visitNodes_eq_preorderList]
  simp [preorderList]

theorem find?_eq_head_filter {α : Type} (q : α → Bool) :
    ∀ (l : List α), l.find? q = (l.filter q).head?
  | [] => rfl
  | x :: xs => by
    by_cases h : q x
    · rw [List.find?_cons_of_pos xs h, List.filter_cons_of_pos h]
      simp
    · rw [List.find?_cons_of_neg xs h, List.filter_cons_of_neg h]
      exact find?_eq_head_filter q xs

/-! ## The Attachment Locator (`get_attachment_by_name`, lines 73-111) -/

/-- An attachment dictionary: the code reads `att.get('name')` and (in the
coordinator) `att.get('source')`, so both keys stay optional. -/
structure Attachment where
  name : Option String
  source : Option String

/-- A stage or step of the execution record.  The source treats the entries of
`beforeStages`/`afterStages` and the entries of a nested `steps` list with the
same two reads — `x.get('attachments', ())` and `x.get('steps')` — so one
shape covers both; an absent key is modelled as the empty list the code
substitutes (for `steps` the code guards with truthiness, `if x.get('steps'):`,
under which absent and empty coincide). -/
inductive StageNode where
  | mk (attachments : List Attachment) (steps : List StageNode)

/-- The `attachments` list of a stage/step. -/
def StageNode.attachments : StageNode → List Attachment
  | .mk atts _ => atts

/-- The nested `steps` list of a stage/step. -/
def StageNode.steps : StageNode → List StageNode
  | .mk _ steps => steps

/-- The execution-record root (`test-cases/{uid}.json`): the code reads only
`beforeStages` and `afterStages` (absent keys default to `()`). -/
structure ExecutionRecord where
  beforeStages : List StageNode
  afterStages : List StageNode

/-- Line 78/92/103 of the source: `att.get('name') == name`. -/
def attMatches (name : String) (att : Attachment) : Bool :=
  att.name == some name

mutual
/-- Termination measure of the nested step search. -/
def StageNode.weight : StageNode → Nat
  | .mk _ steps => 1 + StageNode.weightList steps
/-- Termination measure of a list of stages/steps. -/
def StageNode.weightList : List StageNode → Nat
  | [] => 0
  | s :: ss => StageNode.weight s + StageNode.weightList ss
end

/-- `_search_steps` (source lines 74-86): for each step in order, scan its own
`attachments` for the first entry named `name`; otherwise, when the step has a
non-empty nested `steps` list (Python truthiness of `step.get('steps')`),
search it recursively; a hit anywhere returns immediately, otherwise move on
to the next sibling step. -/
def search_steps (name : String) : List StageNode → Option Attachment
  | [] => none
  | .mk atts steps :: rest =>
    match atts.find? (attMatches name) with
    | some att => some att
    | none =>
      match (if steps.isEmpty then none else search_steps name steps) with
      | some result => some result
      | none => search_steps name rest
termination_by l => StageNode.weightList l
decreasing_by
  all_goals simp [StageNode.weightList, StageNode.weight]
  all_goals omega

/-- One of the two identical stage loops of `get_attachment_by_name`
(source lines 90-98 and 101-109): scan the stages in order, checking each
stage's own `attachments` first and then, when the stage has a non-empty
`steps` list, its nested step tree via `_search_steps`. -/
def searchStageList (name : String) : List StageNode → Option Attachment
  | [] => none
  | .mk atts steps :: rest =>
    match atts.find? (attMatches name) with
    | some att => some att
    | none =>
      match (if steps.isEmpty then none else search_steps name steps) with
      | some result => some result
      | none => searchStageList name rest

/-- `get_attachment_by_name` (source lines 73-111): the `beforeStages` loop,
then the `afterStages` loop, then `None`.  Returns the attachment dictionary
itself (the source's `return att`). -/
def get_attachment_by_name (test_result : ExecutionRecord) (name : String) :
    Option Attachment :=
  match searchStageList name test_result.beforeStages with
  | some att => some att
  | none => searchStageList name test_result.afterStages

mutual
/-- Specification-side flattening: the attachments of a stage/step in scanned
order — its own `attachments` list first, then those of its nested steps,
sibling order preserved. -/
def stageSeq : StageNode → List Attachment
  | .mk atts steps => atts ++ stageSeqList steps
/-- Flattening of a list of stages/steps in order. -/
def stageSeqList : List StageNode → List Attachment
  | [] => []
  | s :: ss => stageSeq s ++ stageSeqList ss
end

/-- All attachments of an execution record in the exact order the search
scans them: every `beforeStages` subtree before any `afterStages` subtree. -/
def recordSeq (r : ExecutionRecord) : List Attachment :=
  stageSeqList r.beforeStages ++ stageSeqList r.afterStages

/-! ## Lemmas for the Attachment Locator -/

theorem search_steps_eq_find? (name : String) :
    ∀ (l : List StageNode),
      search_steps name l = (stageSeqList l).find? (attMatches name)
  | [] => by simp [search_steps, stageSeqList]
  | .mk atts steps :: rest => by
    rw [search_steps]
    have hrest := search_steps_eq_find? name rest
    have hsteps := search_steps_eq_find? name steps
    rcases hatt : atts.find? (attMatches name) with _ | att
    · by_cases hemp : steps.isEmpty
      · have : steps = [] := List.isEmpty_iff.mp hemp
        subst this
        simp [stageSeqList, stageSeq, List.find?_append, hatt, hrest]
      · simp only [hemp, if_false]
        rcases hs : search_steps name steps with _ | att2
        · rw [hsteps] at hs
          simp [stageSeqList, stageSeq, List.find?_append, hatt, hrest, hs]
        · rw [hsteps] at hs
          simp [stageSeqList, stageSeq, List.find?_append, hatt, hs]
    · simp [stageSeqList, stageSeq, List.find?_append, hatt]
termination_by l => StageNode.weightList l
decreasing_by
  all_goals simp [StageNode.weightList, StageNode.weight]
  all_goals omega

theorem searchStageList_eq_find? (name : String) :
    ∀ (l : List StageNode),
      searchStageList name l = (stageSeqList l).find? (attMatches name)
  | [] => by simp [searchStageList, stageSeqList]
  | .mk atts steps :: rest => by
    rw [searchStageList]
    have hrest := searchStageList_eq_find? name rest
    rcases hatt : atts.find? (attMatches name) with _ | att
    · by_cases hemp : steps.isEmpty
      · have : steps = [] := List.isEmpty_iff.mp hemp
        subst this
        simp [stageSeqList, stageSeq, List.find?_append, hatt, hrest]
      · simp only [hemp, if_false]
        rcases hs : search_steps name steps with _ | att2
        · rw [search_steps_eq_find? name steps] at hs
          simp [stageSeqList, stageSeq, List.find?_append, hatt, hrest, hs]
        · rw [search_steps_eq_find? name steps] at hs
          simp [stageSeqList, stageSeq, List.find?_append, hatt, hs]
    · simp [stageSeqList, stageSeq, List.find?_append, hatt]

theorem get_attachment_eq_find? (r : ExecutionRecord) (name : String) :
    get_attachment_by_name r name = (recordSeq r).find? (attMatches name) := by
  rw [get_attachment_by_name, recordSeq, List.find?_append,
    searchStageList_eq_find? name r.beforeStages,
    searchStageList_eq_find? name r.afterStages]
  rcases (stageSeqList r.beforeStages).find? (attMatches name) with _ | att <;>
    simp [Option.or]

/-! ## The Lookup Coordinator (`get_test_attachments`, lines 114-156) -/

/-- Outcome of one HTTP fetch as the coordinator observes it:
`ok` is a parsed body; `fetchError` is a transport error or a non-success
status (`requests.get` raising, or `raise_for_status()`); `malformed` is a
body `.json()` cannot parse.  Both failure constructors raise in the source
and are caught by the coordinator's `except Exception` handler. -/
inductive Fetched (α : Type) where
  | ok (val : α)
  | fetchError
  | malformed

/-- `get_test_attachments` (source lines 114-156), instrumented: the second
component records the `uid`s for which the execution-record fetch
(`test-cases/{uid}.json`, lines 141-146) was actually issued.  The fetch
collaborators are passed in explicitly: `fetchSuites project_id` embeds lines
125-130 and `fetchTestCase project_id uid` lines 141-146; a non-`ok` outcome
takes the `except` path of lines 154-156, which logs and returns `None`.
`if test_uid:` (line 140) is Python truthiness on an optional string: an
absent `uid` key and an empty-string `uid` both skip the second fetch and fall
through to `return None` (line 152). -/
def get_test_attachments_run (fetchSuites : String → Fetched RNode)
    (fetchTestCase : String → String → Fetched ExecutionRecord)
    (project_id suite_name test_name : String) : Option String × List String :=
  match fetchSuites project_id with
  | .fetchError => (none, [])
  | .malformed => (none, [])
  | .ok suites_data =>
    match find_test_in_data suites_data suite_name test_name with
    | none => (none, [])
    | some test_data =>
      match test_data.uidOf with
      | none => (none, [])
      | some test_uid =>
        if test_uid == "" then (none, [])
        else
          match fetchTestCase project_id test_uid with
          | .fetchError => (none, [test_uid])
          | .malformed => (none, [test_uid])
          | .ok result_data =>
            ((get_attachment_by_name result_data "Test Tracing").bind
                Attachment.source,
              [test_uid])

/-- The externally visible result of `get_test_attachments`: the attachment
`source` filename, or `None`. -/
def get_test_attachments (fetchSuites : String → Fetched RNode)
    (fetchTestCase : String → String → Fetched ExecutionRecord)
    (project_id suite_name test_name : String) : Option String :=
  (get_test_attachments_run fetchSuites fetchTestCase
    project_id suite_name test_name).1

/-! ## Concrete fixtures -/

/-- The leaf of the end-to-end scenario tree: `{name: "test_scans_list_artifact_pagination", uid: "abc123"}`. -/
def c7Child : RNode := .obj "test_scans_list_artifact_pagination" (some "abc123") []

/-- The end-to-end scenario suite-summary tree. -/
def c7Tree : RNode := .obj "TestSuitePaginationScansList" none [c7Child]

/-- The trace attachment of the end-to-end scenario. -/
def c7Attachment : Attachment :=
  { name := some "Test Tracing", source := some "trace-file-xyz.zip" }

/-- The end-to-end execution record: empty `beforeStages`, one `afterStages`
stage holding the trace attachment and no steps. -/
def c7Record : ExecutionRecord :=
  { beforeStages := [], afterStages := [.mk [c7Attachment] []] }

/-- Suite-summary fetch collaborator of the end-to-end scenario. -/
def c7FetchSuites : String → Fetched RNode := fun _ => .ok c7Tree

/-- Execution-record fetch collaborator of the end-to-end scenario. -/
def c7FetchTestCase : String → String → Fetched ExecutionRecord :=
  fun _ uid => if uid == "abc123" then .ok c7Record else .fetchError

/-- A record whose only attachment is named `"A"`. -/
def cexAttachment : Attachment := { name := some "A", source := some "s.zip" }

/-- A one-stage record holding `cexAttachment` at the top of `beforeStages`. -/
def cexRecord : ExecutionRecord :=
  { beforeStages := [.mk [cexAttachment] []], afterStages := [] }

/-- A record with attachments, none of them named `"Test Tracing"`. -/
def c8Record : ExecutionRecord :=
  { beforeStages := [.mk [{ name := some "Screenshot", source := some "shot.png" }] []],
    afterStages := [.mk [] [.mk [{ name := some "Log", source := none }] []]] }

/-- A tree containing no node named `"nope"` or `"unknown_test"`. -/
def missTree : RNode := .obj "TestFoo" none [.obj "bar" (some "u1") []]

/-- A matching node whose `uid` key holds the empty string. -/
def emptyUidChild : RNode := .obj "case_empty_uid" (some "") []

/-- A tree whose only matching node carries an empty-string `uid`. -/
def emptyUidTree : RNode := .obj "TestFoo" none [emptyUidChild]

/-! ## Claims -/

/-- C1: unique-match completeness of the Suite Locator.  If the traversal of
the tree meets exactly one qualifying pair — a node that, at its visit,
satisfies `current_suite == suite_name`, `name == test_name` and carries a
`uid` — then `find_test_in_data` returns that node (which carries the `uid`),
not `None`. -/
theorem C1_unique_match (root : RNode) (suite_name test_name : String)
    (p : RNode × Option String)
    (h : (visits root).filter (matchB suite_name test_name) = [p]) :
    find_test_in_data root suite_name test_name = some p.1 ∧ p.1.uidOf.isSome := by
  have hf := find_test_in_data_eq_find? root suite_name test_name
  rw [find?_eq_head_filter, h] at hf
  refine ⟨by simpa using hf, ?_⟩
  have hp : p ∈ (visits root).filter (matchB suite_name test_name) := by
    rw [h]; simp
  have hm := (List.mem_filter.mp hp).2
  simp only [matchB, Bool.and_eq_true] at hm
  exact hm.2

/-- Witness for C1 on the end-to-end fixture tree, whose unique qualifying
node is `c7Child`. -/
theorem C1_unique_match_witness :
    find_test_in_data c7Tree "TestSuitePaginationScansList"
        "test_scans_list_artifact_pagination" = some c7Child ∧
      c7Child.uidOf.isSome := by
  have h : (visits c7Tree).filter
      (matchB "TestSuitePaginationScansList" "test_scans_list_artifact_pagination") =
      [(c7Child, some "TestSuitePaginationScansList")] := by
    simp +decide [visits, visitAux, c7Tree, c7Child, updateSuite, matchB,
      RNode.nameOf, RNode.uidOf]
  exact C1_unique_match c7Tree "TestSuitePaginationScansList"
    "test_scans_list_artifact_pagination" (c7Child, some "TestSuitePaginationScansList") h

/-- C2 counterexample: on a record whose single attachment is
`{name: "A", source: "s.zip"}`, `get_attachment_by_name` returns the full
attachment record — its `name` field included — not the `source` string
`"s.zip"` alone; the `source` extraction happens later, in
`get_test_attachments` (line 150 of the source). -/
theorem C2_counterexample :
    get_attachment_by_name cexRecord "A" = some cexAttachment ∧
      cexAttachment.name = some "A" ∧ cexAttachment.source = some "s.zip" := by
  refine ⟨?_, rfl, rfl⟩
  simp +decide [get_attachment_by_name, searchStageList, cexRecord, cexAttachment,
    attMatches]

/-- C2 (amended): `get_attachment_by_name` performs exactly the claimed
ordered search — all of `beforeStages` in listed order, each stage's own
`attachments` before its nested steps in pre-order with sibling order
preserved, then the same over `afterStages`, first match winning globally —
but returns the full matching attachment record (`recordSeq` lists the
attachment records in scanned order and `find?` takes the first hit); the
`source` field is extracted by the caller. -/
theorem C2_search_order (r : ExecutionRecord) (attachment_name : String) :
    get_attachment_by_name r attachment_name =
      (recordSeq r).find? (attMatches attachment_name) :=
  get_attachment_eq_find? r attachment_name

/-- C3: flat suite-context semantics.  The context paired with each visited
node is obtained by threading one single `current_suite` value along the flat
visit order (`threadCtx`), overwritten — never stacked — at each node whose
name contains `"TestSuite"` or `"Test"` as a substring, the update landing
before the node's own match check; and the locator's result is exactly the
first visited pair satisfying `current_suite == suite_name`,
`name == test_name` (exact equality) and `uid` present. -/
theorem C3_flat_suite_context (root : RNode) (suite_name test_name : String) :
    visits root = threadCtx none ((visits root).map Prod.fst) ∧
    find_test_in_data root suite_name test_name =
      ((visits root).find? (matchB suite_name test_name)).map Prod.fst := by
  constructor
  · show visitAux [root] none =
      threadCtx none ((visitAux [root] none).map Prod.fst)
    rw [visitAux_map_fst, visitAux_eq_threadCtx]
  · exact find_test_in_data_eq_find? root suite_name test_name

/-- C4: traversal order and tie-breaking.  The visit order of
`find_test_in_data` is the depth-first pre-order in which every node's
children — pushed as one block and popped from the stack top, suite-like or
not — are visited in reverse of their listed order (`preorderRev`), and the
returned node is the first match in that order (`find?` short-circuits at the
first hit). -/
theorem C4_traversal_order (root : RNode) (suite_name test_name : String) :
    (visits root).map Prod.fst = preorderRev root ∧
    find_test_in_data root suite_name test_name =
      ((visits root).find? (matchB suite_name test_name)).map Prod.fst :=
  ⟨visits_map_fst_eq_preorderRev root,
    find_test_in_data_eq_find? root suite_name test_name⟩

/-- C5: error collapse at the coordinator.  A failed or malformed suite fetch,
or a failed or malformed execution-record fetch after a successful locate,
yields the same `None` a genuine miss yields; the embedding is total, so no
resolution failure escapes the coordinator. -/
theorem C5_error_collapse (fetchSuites : String → Fetched RNode)
    (fetchTestCase : String → String → Fetched ExecutionRecord)
    (project_id suite_name test_name : String) :
    ((fetchSuites project_id = .fetchError ∨ fetchSuites project_id = .malformed) →
      get_test_attachments fetchSuites fetchTestCase
        project_id suite_name test_name = none) ∧
    (∀ (suites_data test_data : _) (test_uid : String),
      fetchSuites project_id = .ok suites_data →
      find_test_in_data suites_data suite_name test_name = some test_data →
      test_data.uidOf = some test_uid → test_uid ≠ "" →
      (fetchTestCase project_id test_uid = .fetchError ∨
        fetchTestCase project_id test_uid = .malformed) →
      get_test_attachments fetchSuites fetchTestCase
        project_id suite_name test_name = none) := by
  constructor
  · rintro (h | h) <;>
      simp [get_test_attachments, get_test_attachments_run, h]
  · rintro suites_data test_data test_uid h1 h2 h3 h4 (h5 | h5) <;>
      simp [get_test_attachments, get_test_attachments_run, h1, h2, h3, h4, h5]

/-- Witness for C5: a transport failure of the suite fetch resolves to
`none`. -/
theorem C5_error_collapse_witness :
    get_test_attachments (fun _ => .fetchError) (fun _ _ => .fetchError)
      "P1" "S" "T" = none :=
  (C5_error_collapse (fun _ => .fetchError) (fun _ _ => .fetchError)
    "P1" "S" "T").1 (Or.inl rfl)

/-- C6: short-circuit on suite miss.  When the Suite Locator returns `None`,
the coordinator returns `None` with an empty second-fetch trace: the
execution-record fetch is never issued, whatever collaborator was supplied
for it. -/
theorem C6_short_circuit (fetchSuites : String → Fetched RNode)
    (fetchTestCase : String → String → Fetched ExecutionRecord)
    (project_id suite_name test_name : String) (suites_data : RNode)
    (h1 : fetchSuites project_id = .ok suites_data)
    (h2 : find_test_in_data suites_data suite_name test_name = none) :
    get_test_attachments_run fetchSuites fetchTestCase
      project_id suite_name test_name = (none, []) := by
  simp [get_test_attachments_run, h1, h2]

/-- Witness for C6: querying an unknown test name on `missTree` yields
`none` with no second fetch, though the execution-record collaborator would
have answered. -/
theorem C6_short_circuit_witness :
    get_test_attachments_run (fun _ => .ok missTree) (fun _ _ => .ok c7Record)
      "P1" "TestFoo" "unknown_test" = (none, []) :=
  C6_short_circuit (fun _ => .ok missTree) (fun _ _ => .ok c7Record)
    "P1" "TestFoo" "unknown_test" missTree rfl
    (by simp +decide [find_test_in_data, find_test_in_data_aux, missTree,
      updateSuite])

/-- C7: end-to-end scenario.  On the given suite-summary tree and execution
record, resolving
`("P1", "TestSuitePaginationScansList", "test_scans_list_artifact_pagination")`
yields `"trace-file-xyz.zip"` with exactly one execution-record fetch (uid
`"abc123"`), and the Attachment Locator applied with the fixed constant name
`"Test Tracing"` — the literal the coordinator passes at line 148 — finds the
trace attachment. -/
theorem C7_end_to_end :
    get_test_attachments_run c7FetchSuites c7FetchTestCase "P1"
        "TestSuitePaginationScansList" "test_scans_list_artifact_pagination" =
      (some "trace-file-xyz.zip", ["abc123"]) ∧
    get_attachment_by_name c7Record "Test Tracing" = some c7Attachment := by
  constructor
  · simp +decide [get_test_attachments_run, c7FetchSuites, c7FetchTestCase,
      find_test_in_data, find_test_in_data_aux, c7Tree, c7Child, updateSuite,
      RNode.uidOf, get_attachment_by_name, searchStageList, c7Record,
      c7Attachment, attMatches]
  · simp +decide [get_attachment_by_name, searchStageList, c7Record,
      c7Attachment, attMatches]

/-- C8: Attachment Locator absence.  If no attachment anywhere in the scanned
sequence — any `beforeStages` or `afterStages` stage or any nested step at any
depth — is named `attachment_name`, `get_attachment_by_name` returns
`none`. -/
theorem C8_absent (r : ExecutionRecord) (attachment_name : String)
    (h : ∀ a ∈ recordSeq r, a.name ≠ some attachment_name) :
    get_attachment_by_name r attachment_name = none := by
  rw [get_attachment_eq_find?]
  exact List.find?_eq_none.mpr (fun a ha => by simp [attMatches, h a ha])

/-- Witness for C8 on a record with attachments named only `"Screenshot"` and
`"Log"`. -/
theorem C8_absent_witness :
    get_attachment_by_name c8Record "Test Tracing" = none :=
  C8_absent c8Record "Test Tracing"
    (by simp +decide [recordSeq, stageSeqList, stageSeq, c8Record])

/-- C9: Suite Locator totality on misses.  The embedding of
`find_test_in_data` is a total function (its traversal terminates on every
tree by the `weightList` measure), and on any tree whose visits all fail the
match condition it returns `none`. -/
theorem C9_miss_returns_none (root : RNode) (suite_name test_name : String)
    (h : ∀ p ∈ visits root, matchB suite_name test_name p = false) :
    find_test_in_data root suite_name test_name = none := by
  rw [find_test_in_data_eq_find?,
    List.find?_eq_none.mpr (fun x hx => by simp [h x hx])]
  rfl

/-- Witness for C9: no node of `missTree` is named `"nope"`. -/
theorem C9_miss_returns_none_witness :
    find_test_in_data missTree "TestFoo" "nope" = none :=
  C9_miss_returns_none missTree "TestFoo" "nope"
    (by simp +decide [visits, visitAux, missTree, updateSuite, matchB,
      RNode.nameOf, RNode.uidOf])

/-- C10: falsy-uid edge case.  When the located node's `uid` key holds the
empty string — enough to satisfy the locator's `'uid' in node` check — the
coordinator's Python-truthiness test `if test_uid:` fails, so resolution
returns `none` and the execution-record fetch is never issued. -/
theorem C10_falsy_uid (fetchSuites : String → Fetched RNode)
    (fetchTestCase : String → String → Fetched ExecutionRecord)
    (project_id suite_name test_name : String) (suites_data test_data : RNode)
    (h1 : fetchSuites project_id = .ok suites_data)
    (h2 : find_test_in_data suites_data suite_name test_name = some test_data)
    (h3 : test_data.uidOf = some "") :
    get_test_attachments_run fetchSuites fetchTestCase
      project_id suite_name test_name = (none, []) := by
  simp [get_test_attachments_run, h1, h2, h3]

/-- Witness for C10: the matching node of `emptyUidTree` carries `uid = ""`;
resolution is `none` with no second fetch. -/
theorem C10_falsy_uid_witness :
    get_test_attachments_run (fun _ => .ok emptyUidTree) (fun _ _ => .ok c7Record)
      "P1" "TestFoo" "case_empty_uid" = (none, []) :=
  C10_falsy_uid (fun _ => .ok emptyUidTree) (fun _ _ => .ok c7Record)
    "P1" "TestFoo" "case_empty_uid" emptyUidTree emptyUidChild rfl
    (by simp +decide [find_test_in_data, find_test_in_data_aux, emptyUidTree,
      emptyUidChild, updateSuite])
    rfl
